import Mathlib

/- Shallow embedding of the Ichiglyph language tools: the execution engine of
src/interpreter/ichiglyph/ichiglyph.c and of the reference Brainfuck
interpreter (identical code up to opcode width and decode table), together
with the instruction-encoding tables of the two transpilers.

Machine integers: the data pointer `dp` is a C `size_t`; its arithmetic is
modelled as Nat reduced modulo 2 ^ 64 (`SIZE_T_MOD`) because `dp--` at
`dp == 0` really wraps around.  The instruction pointer and the jump-scan
balance counters are also `size_t`, but `ip` never exceeds
`program_size + 1` and a balance counter never exceeds `program_size + 1`
(one change per fetched unit), both far below 2 ^ 64 for any mappable file,
so they are modelled as plain Nat.  Cell bytes are `uint8_t`, modelled as
Nat with explicit `% 256`.  A `realloc` failure is an environment condition:
the tape operations used by the engine model the successful allocation path,
and `data_bound_chk` models the checked path with an allocation oracle. -/

/-- Instruction enumeration `instruction_t`.  All four C files declare the
identical nine-constructor enum. -/
inductive instruction_t where
  | INST_DP_INC
  | INST_DP_DEC
  | INST_VAL_INC
  | INST_VAL_DEC
  | INST_VAL_OUTPUT
  | INST_VAL_ACCEPT
  | INST_JMP_FORWARD
  | INST_JMP_BACK
  | INST_NOP
  deriving DecidableEq

/-- Decode table of the Brainfuck interpreter (`opcode_decode`): the eight
instruction characters decode to their instruction, anything else is a NOP. -/
def opcode_decode (opcode : Char) : instruction_t :=
  match opcode with
  | '>' => instruction_t.INST_DP_INC
  | '<' => instruction_t.INST_DP_DEC
  | '+' => instruction_t.INST_VAL_INC
  | '-' => instruction_t.INST_VAL_DEC
  | '.' => instruction_t.INST_VAL_OUTPUT
  | ',' => instruction_t.INST_VAL_ACCEPT
  | '[' => instruction_t.INST_JMP_FORWARD
  | ']' => instruction_t.INST_JMP_BACK
  | _ => instruction_t.INST_NOP

/-- Decode table of the Ichiglyph interpreter and of ig2bf
(`opcode_decode` / `ichiglyph_opcode_decode`): nested switch on the two
bytes of an opcode unit, any unrecognized unit is a NOP. -/
def ichiglyph_opcode_decode (opcode : Char × Char) : instruction_t :=
  match opcode.1 with
  | 'l' =>
    match opcode.2 with
    | 'l' => instruction_t.INST_DP_INC
    | 'I' => instruction_t.INST_DP_DEC
    | '1' => instruction_t.INST_JMP_FORWARD
    | _ => instruction_t.INST_NOP
  | 'I' =>
    match opcode.2 with
    | 'l' => instruction_t.INST_VAL_INC
    | 'I' => instruction_t.INST_VAL_DEC
    | '1' => instruction_t.INST_JMP_BACK
    | _ => instruction_t.INST_NOP
  | '1' =>
    match opcode.2 with
    | 'l' => instruction_t.INST_VAL_OUTPUT
    | 'I' => instruction_t.INST_VAL_ACCEPT
    | _ => instruction_t.INST_NOP
  | _ => instruction_t.INST_NOP

/-- Memory allocation granularity `DATA_GRANULARITY`. -/
def DATA_GRANULARITY : Nat := 32768

/-- Modulus of `size_t` arithmetic, 2 ^ 64. -/
def SIZE_T_MOD : Nat := 18446744073709551616

/-- Data memory `data_t`: the allocated buffer.  The C struct carries the
buffer pointer plus its size; here the list length is the size. -/
structure data_t where
  data : List Nat
  deriving DecidableEq

/-- Size of the currently allocated data (the `size` field of `data_t`). -/
def data_t.size (d : data_t) : Nat := d.data.length

/-- `data_init`: no memory is allocated initially. -/
def data_init : data_t := ⟨[]⟩

/-- `data_bound`: if `dp` is not yet backed, reallocate to
`size_t size = dp + 1 + DATA_GRANULARITY` cells; this size computation is
`size_t` arithmetic and wraps modulo 2 ^ 64.  `realloc` keeps the old
prefix and the `memset` zero-fills the region between the old size and the
new one, modelled by the appended zero block.  Outside the wrap window
(`dp + 1 + DATA_GRANULARITY < SIZE_T_MOD`) this is exactly the C buffer.
Inside the wrap window — reachable only through the unguarded pointer
underflow of `INST_DP_DEC` — the C code allocates only the wrapped size, so
a caller's subsequent store at `dp` lands outside the buffer (undefined
behavior; the model's out-of-range `List.set` leaves the tape unchanged),
and when the wrapped size is below the current size the `memset` length
itself wraps and the process dies (the model then appends an empty block).
This models the successful allocation path (see `data_bound_chk` for the
checked variant). -/
def data_bound (data : data_t) (dp : Nat) : data_t :=
  if data.size ≤ dp then
    ⟨data.data ++ List.replicate ((dp + 1 + DATA_GRANULARITY) % SIZE_T_MOD - data.size) 0⟩
  else
    data

/-- Result of a checked tape access: the C function returns 0 on success and
a non-zero value on the single failure path (realloc returned NULL). -/
inductive tape_result where
  | ok : data_t → tape_result
  | resourceExhausted : tape_result
  deriving DecidableEq

/-- `data_bound` with the allocation outcome made explicit: `allocOk` is the
oracle for whether `realloc` succeeds when growth is needed.  The success
path computes the same wrapped `size_t` size as `data_bound`. -/
def data_bound_chk (allocOk : Bool) (data : data_t) (dp : Nat) : tape_result :=
  if data.size ≤ dp then
    if allocOk then
      tape_result.ok
        ⟨data.data ++ List.replicate ((dp + 1 + DATA_GRANULARITY) % SIZE_T_MOD - data.size) 0⟩
    else
      tape_result.resourceExhausted
  else
    tape_result.ok data

/-- `data_get`: value of the cell at `dp`, or 0 beyond the buffer; never
grows the buffer (it takes no ownership of the tape and returns only the
byte). -/
def data_get (data : data_t) (dp : Nat) : Nat :=
  if data.size ≤ dp then 0 else data.data.getD dp 0

/-- `data_inc`: bound the access, then `data->data[dp]++` on a `uint8_t`.
At a wrap-window `dp` the store index lies beyond the buffer `data_bound`
allocated — in C an out-of-bounds write (undefined behavior), here an
out-of-range `List.set` that changes no cell of the tape. -/
def data_inc (data : data_t) (dp : Nat) : data_t :=
  ⟨(data_bound data dp).data.set dp (((data_bound data dp).data.getD dp 0 + 1) % 256)⟩

/-- `data_dec`: bound the access, then `data->data[dp]--` on a `uint8_t`
(subtracting 1 modulo 256 is adding 255 modulo 256). -/
def data_dec (data : data_t) (dp : Nat) : data_t :=
  ⟨(data_bound data dp).data.set dp (((data_bound data dp).data.getD dp 0 + 255) % 256)⟩

/-- `data_set`: bound the access, then store the byte (the `uint8_t val`
parameter truncates the incoming int). -/
def data_set (data : data_t) (dp : Nat) (val : Nat) : data_t :=
  ⟨(data_bound data dp).data.set dp (val % 256)⟩

/-- Balance update of the forward-scan switch: a further `[` raises the
balance, a `]` lowers it, everything else leaves it. -/
def fwd_balance (inst : instruction_t) (balance : Nat) : Nat :=
  match inst with
  | instruction_t.INST_JMP_FORWARD => balance + 1
  | instruction_t.INST_JMP_BACK => balance - 1
  | _ => balance

/-- Balance update of the backward-scan switch: symmetric to
`fwd_balance`. -/
def back_balance (inst : instruction_t) (balance : Nat) : Nat :=
  match inst with
  | instruction_t.INST_JMP_FORWARD => balance - 1
  | instruction_t.INST_JMP_BACK => balance + 1
  | _ => balance

/-- Worker of the `INST_JMP_FORWARD` scan loop.  The loop body is
`if (ip == program_size) break; ip++; fetch program[ip]; update balance`.
`rem` counts how many loop iterations remain before the `ip == program_size`
check fires, i.e. `rem = n - ip`; when `rem = 0` the check breaks with `ip`
unchanged (also the value returned when `balance` is already 0 there).
Note the body fetches at `ip + 1` before re-checking the bound, exactly as
the source does. -/
def fwd_scan_go (fetch : Nat → instruction_t) : Nat → Nat → Nat → Nat
  | 0, ip, _ => ip
  | rem + 1, ip, balance =>
    if balance = 0 then ip
    else fwd_scan_go fetch rem (ip + 1) (fwd_balance (fetch (ip + 1)) balance)

/-- The `INST_JMP_FORWARD` scan loop of `main`: final value of `ip`. -/
def fwd_scan (fetch : Nat → instruction_t) (n ip balance : Nat) : Nat :=
  fwd_scan_go fetch (n - ip) ip balance

/-- Same recursion as `fwd_scan_go`, recording the index of every program
fetch (`memcpy(&opcode2, program + ip, ...)`) the loop body performs. -/
def fwd_scan_fetches_go (fetch : Nat → instruction_t) : Nat → Nat → Nat → List Nat
  | 0, _, _ => []
  | rem + 1, ip, balance =>
    if balance = 0 then []
    else (ip + 1) :: fwd_scan_fetches_go fetch rem (ip + 1) (fwd_balance (fetch (ip + 1)) balance)

/-- Indices fetched by the `INST_JMP_FORWARD` scan loop. -/
def fwd_scan_fetches (fetch : Nat → instruction_t) (n ip balance : Nat) : List Nat :=
  fwd_scan_fetches_go fetch (n - ip) ip balance

/-- The `INST_JMP_BACK` scan loop of `main`: final value of `ip`.  The body
is `if (ip == 0) { ip = program_size; break; } ip--; fetch program[ip];
update balance`; the checks happen in exactly this order. -/
def back_scan (fetch : Nat → instruction_t) (n ip balance : Nat) : Nat :=
  if balance = 0 then ip
  else
    match ip with
    | 0 => n
    | m + 1 => back_scan fetch n m (back_balance (fetch m) balance)

/-- Transcribed from the specification wording for claim C1 (worker): scan
positions `j, j + 1, ...` strictly below `n`, updating the balance at each
position; stop with `some j` at the position where the balance reaches 0
(the matching instruction); `none` when the scan reaches the end of the
program first.  `rem = n - j` counts the remaining positions. -/
def spec_fwd_scan_go (fetch : Nat → instruction_t) : Nat → Nat → Nat → Option Nat
  | 0, _, _ => none
  | rem + 1, j, balance =>
    if fwd_balance (fetch j) balance = 0 then some j
    else spec_fwd_scan_go fetch rem (j + 1) (fwd_balance (fetch j) balance)

/-- Transcribed from the specification wording for claim C1: scan forward
from position `j` with the given starting balance. -/
def spec_fwd_scan (fetch : Nat → instruction_t) (n j balance : Nat) : Option Nat :=
  spec_fwd_scan_go fetch (n - j) j balance

/-- Transcribed from the specification wording for claim C2: scan backward
from position `j` towards 0, updating the balance at each position; stop
with `some j` where the balance reaches 0 (the matching instruction);
`none` when the scan would go below index 0 before matching. -/
def spec_back_scan (fetch : Nat → instruction_t) (j balance : Nat) : Option Nat :=
  if back_balance (fetch j) balance = 0 then some j
  else
    match j with
    | 0 => none
    | m + 1 => spec_back_scan fetch m (back_balance (fetch (m + 1)) balance)

/-- State of the fetch-decode-execute loop of `main`: instruction pointer,
data pointer, tape, remaining standard input and produced standard
output. -/
structure EngineState where
  ip : Nat
  dp : Nat
  data : data_t
  input : List Nat
  output : List Nat
  deriving DecidableEq

/-- The `switch (instruction)` dispatch of `main`.  `fetch i` is the decode
of the program unit at index `i` (both interpreters decode each fetched
unit with a pure table; out-of-range indices read the zero padding of the
final mmap page, which decodes to a NOP in either encoding).  On
end-of-input the `INST_VAL_ACCEPT` case sets `ip = program_size`.  The
out-of-memory branches of `INST_VAL_INC`, `INST_VAL_DEC` and
`INST_VAL_ACCEPT` are unreachable under the successful-allocation model. -/
def engine_exec (fetch : Nat → instruction_t) (n : Nat) (s : EngineState) : EngineState :=
  match fetch s.ip with
  | instruction_t.INST_DP_INC => { s with dp := (s.dp + 1) % SIZE_T_MOD }
  | instruction_t.INST_DP_DEC => { s with dp := (s.dp + (SIZE_T_MOD - 1)) % SIZE_T_MOD }
  | instruction_t.INST_VAL_INC => { s with data := data_inc s.data s.dp }
  | instruction_t.INST_VAL_DEC => { s with data := data_dec s.data s.dp }
  | instruction_t.INST_VAL_OUTPUT => { s with output := s.output ++ [data_get s.data s.dp] }
  | instruction_t.INST_VAL_ACCEPT =>
    match s.input with
    | [] => { s with ip := n }
    | b :: rest => { s with data := data_set s.data s.dp b, input := rest }
  | instruction_t.INST_JMP_FORWARD =>
    if data_get s.data s.dp = 0 then { s with ip := fwd_scan fetch n s.ip 1 } else s
  | instruction_t.INST_JMP_BACK =>
    if data_get s.data s.dp = 0 then s else { s with ip := back_scan fetch n s.ip 1 }
  | instruction_t.INST_NOP => s

/-- One iteration of the `while (ip < program_size)` loop: dispatch, then
the unconditional `ip++`. -/
def engine_step (fetch : Nat → instruction_t) (n : Nat) (s : EngineState) : EngineState :=
  { engine_exec fetch n s with ip := (engine_exec fetch n s).ip + 1 }

/-- The run loop, fuel-indexed: `some s` when the loop guard fails within
`fuel` iterations, `none` when the program has not terminated yet. -/
def engine_run (fetch : Nat → instruction_t) (n : Nat) : Nat → EngineState → Option EngineState
  | 0, _ => none
  | fuel + 1, s => if s.ip < n then engine_run fetch n fuel (engine_step fetch n s) else some s

/-- Initial engine state: `ip = 0`, `dp = 0`, empty tape. -/
def engine_init (input : List Nat) : EngineState :=
  { ip := 0, dp := 0, data := data_init, input := input, output := [] }

/-- Caller-observable outcome of `main` once the program is loaded: the
bytes written to standard output and the process exit status, which is the
constant 0 on every path that reaches the run loop (the 1-4 statuses are
load failures that happen before the engine starts). -/
def engine_main (fetch : Nat → instruction_t) (n : Nat) (input : List Nat) (fuel : Nat) :
    Option (List Nat × Nat) :=
  (engine_run fetch n fuel (engine_init input)).map (fun s => (s.output, 0))

/-- Fetch-and-decode of the Brainfuck interpreter: `program[ip]` decoded
with `opcode_decode`.  The default for an out-of-range index is the NUL
byte of the zero-filled mmap page padding. -/
def bf_fetch (prog : List Char) (i : Nat) : instruction_t :=
  opcode_decode (prog.getD i (Char.ofNat 0))

/-- Fetch-and-decode of the Ichiglyph interpreter: the 2-byte unit at index
`i` decoded with `ichiglyph_opcode_decode`.  An out-of-range unit has a NUL
second byte, so it decodes to a NOP whatever its first byte is; the NUL
pair default is observably equivalent. -/
def ig_fetch (prog : List (Char × Char)) (i : Nat) : instruction_t :=
  ichiglyph_opcode_decode (prog.getD i (Char.ofNat 0, Char.ofNat 0))

/-- The Brainfuck interpreter run on a program and input. -/
def brainfuck_run (prog : List Char) (input : List Nat) (fuel : Nat) : Option EngineState :=
  engine_run (bf_fetch prog) prog.length fuel (engine_init input)

/-- The Ichiglyph interpreter run on a program and input. -/
def ichiglyph_run (prog : List (Char × Char)) (input : List Nat) (fuel : Nat) :
    Option EngineState :=
  engine_run (ig_fetch prog) prog.length fuel (engine_init input)

/-- Caller-observable outcome of the Brainfuck interpreter `main`. -/
def brainfuck_main (prog : List Char) (input : List Nat) (fuel : Nat) :
    Option (List Nat × Nat) :=
  engine_main (bf_fetch prog) prog.length input fuel

/-- Brainfuck encoding of one instruction: the `fputs` switch of ig2bf;
`INST_NOP` emits nothing. -/
def brainfuck_encode (inst : instruction_t) : List Char :=
  match inst with
  | instruction_t.INST_DP_INC => ['>']
  | instruction_t.INST_DP_DEC => ['<']
  | instruction_t.INST_VAL_INC => ['+']
  | instruction_t.INST_VAL_DEC => ['-']
  | instruction_t.INST_VAL_OUTPUT => ['.']
  | instruction_t.INST_VAL_ACCEPT => [',']
  | instruction_t.INST_JMP_FORWARD => ['[']
  | instruction_t.INST_JMP_BACK => [']']
  | instruction_t.INST_NOP => []

/-- Ichiglyph encoding of one instruction: the `fputs` switch of bf2ig;
`INST_NOP` emits nothing. -/
def ichiglyph_encode (inst : instruction_t) : List (Char × Char) :=
  match inst with
  | instruction_t.INST_DP_INC => [('l', 'l')]
  | instruction_t.INST_DP_DEC => [('l', 'I')]
  | instruction_t.INST_VAL_INC => [('I', 'l')]
  | instruction_t.INST_VAL_DEC => [('I', 'I')]
  | instruction_t.INST_VAL_OUTPUT => [('1', 'l')]
  | instruction_t.INST_VAL_ACCEPT => [('1', 'I')]
  | instruction_t.INST_JMP_FORWARD => [('l', '1')]
  | instruction_t.INST_JMP_BACK => [('I', '1')]
  | instruction_t.INST_NOP => []

/-- Brainfuck encoding of an instruction sequence. -/
def brainfuck_encode_program (p : List instruction_t) : List Char :=
  (p.map brainfuck_encode).flatten

/-- Ichiglyph encoding of an instruction sequence. -/
def ichiglyph_encode_program (p : List instruction_t) : List (Char × Char) :=
  (p.map ichiglyph_encode).flatten

/-- Helper: `getD` of an append splits at the length of the first list. -/
theorem list_getD_append (l l' : List Nat) :
    ∀ j, (l ++ l').getD j 0 = if j < l.length then l.getD j 0 else l'.getD (j - l.length) 0 := by
  induction l with
  | nil => intro j; simp
  | cons a l ih =>
    intro j
    cases j with
    | zero => simp
    | succ m =>
      simpa [List.getD_cons_succ, Nat.succ_lt_succ_iff] using ih m

/-- Helper: every cell of a zero replicate reads as 0. -/
theorem list_getD_replicate (k : Nat) : ∀ i, (List.replicate k 0).getD i 0 = 0 := by
  induction k with
  | zero => intro i; cases i <;> rfl
  | succ k ih =>
    intro i
    cases i with
    | zero => rfl
    | succ m => exact ih m

/-- Helper: `getD` after `set`. -/
theorem list_getD_set (l : List Nat) :
    ∀ i j v, (l.set i v).getD j 0 = if i = j ∧ i < l.length then v else l.getD j 0 := by
  induction l with
  | nil => intro i j v; cases i <;> cases j <;> simp
  | cons a l ih =>
    intro i j v
    cases i with
    | zero =>
      cases j with
      | zero => simp
      | succ m => simp
    | succ k =>
      cases j with
      | zero => simp
      | succ m =>
        simpa [List.getD_cons_succ, Nat.succ_lt_succ_iff] using ih k m v

/-- Helper: size of a tape literal. -/
theorem data_mk_size (l : List Nat) : (⟨l⟩ : data_t).size = l.length := rfl

/-- Helper: `data_get` on a tape literal. -/
theorem data_get_mk (l : List Nat) (j : Nat) :
    data_get ⟨l⟩ j = if l.length ≤ j then 0 else l.getD j 0 := rfl

/-- Size of the tape after `data_bound`: the wrapped target size, except
that a wrapped size below the current one appends nothing. -/
theorem data_bound_size (d : data_t) (dp : Nat) :
    (data_bound d dp).size
      = if d.size ≤ dp then d.size + ((dp + 1 + DATA_GRANULARITY) % SIZE_T_MOD - d.size)
        else d.size := by
  unfold data_bound
  by_cases h : d.size ≤ dp
  · rw [if_pos h, if_pos h, data_mk_size, List.length_append, List.length_replicate]
    rfl
  · rw [if_neg h, if_neg h]

/-- Outside the wrap window, growth reaches exactly
`dp + 1 + DATA_GRANULARITY` cells. -/
theorem data_bound_size_grow (d : data_t) (dp : Nat)
    (hW : dp + 1 + DATA_GRANULARITY < SIZE_T_MOD) (hg : d.size ≤ dp) :
    (data_bound d dp).size = dp + 1 + DATA_GRANULARITY := by
  rw [data_bound_size, if_pos hg, Nat.mod_eq_of_lt hW]
  omega

/-- Outside the wrap window, `data_bound d dp` backs the index `dp`. -/
theorem data_lt_bound_size (d : data_t) (dp : Nat)
    (hW : dp + 1 + DATA_GRANULARITY < SIZE_T_MOD) : dp < (data_bound d dp).size := by
  by_cases hg : d.size ≤ dp
  · rw [data_bound_size_grow d dp hW hg]
    omega
  · rw [data_bound_size, if_neg hg]
    omega

/-- `data_bound` does not change the logical content of any cell: old cells
are preserved by `realloc` and new cells are zero-filled, which is exactly
what an unbacked cell already read as (this holds wrap window included:
the appended block is all zeros whatever its length). -/
theorem data_get_bound (d : data_t) (dp j : Nat) :
    data_get (data_bound d dp) j = data_get d j := by
  have hs : d.data.length = d.size := rfl
  by_cases hg : d.size ≤ dp
  · have hb : data_bound d dp
        = ⟨d.data ++ List.replicate ((dp + 1 + DATA_GRANULARITY) % SIZE_T_MOD - d.size) 0⟩ := by
      unfold data_bound
      rw [if_pos hg]
    rw [hb, data_get_mk, List.length_append, List.length_replicate, list_getD_append]
    unfold data_get
    by_cases hj1 : j < d.size
    · rw [if_neg (show ¬ d.data.length
              + ((dp + 1 + DATA_GRANULARITY) % SIZE_T_MOD - d.size) ≤ j from by omega),
          if_pos (show j < d.data.length from by omega),
          if_neg (show ¬ d.size ≤ j from by omega)]
    · rw [if_pos (show d.size ≤ j from by omega)]
      by_cases h1 : d.data.length + ((dp + 1 + DATA_GRANULARITY) % SIZE_T_MOD - d.size) ≤ j
      · rw [if_pos h1]
      · rw [if_neg h1, if_neg (show ¬ j < d.data.length from by omega), list_getD_replicate]
  · have hb : data_bound d dp = d := by
      unfold data_bound
      rw [if_neg hg]
    rw [hb]

/-- The raw buffer read the increment/decrement use after `data_bound`
agrees with `data_get` on the original tape (outside the wrap window). -/
theorem data_bound_getD (d : data_t) (dp : Nat)
    (hW : dp + 1 + DATA_GRANULARITY < SIZE_T_MOD) :
    (data_bound d dp).data.getD dp 0 = data_get d dp := by
  have h2 : data_get (data_bound d dp) dp = (data_bound d dp).data.getD dp 0 := by
    unfold data_get
    rw [if_neg (show ¬ (data_bound d dp).size ≤ dp from by
      have := data_lt_bound_size d dp hW; omega)]
  rw [← h2]
  exact data_get_bound d dp dp

/-- Cell content after the bound-then-store pattern shared by `data_inc`,
`data_dec` and `data_set`, outside the wrap window (inside it the store
misses the buffer). -/
theorem data_write_get (d : data_t) (dp v j : Nat)
    (hW : dp + 1 + DATA_GRANULARITY < SIZE_T_MOD) :
    data_get ⟨(data_bound d dp).data.set dp v⟩ j = if dp = j then v else data_get d j := by
  have hdp : dp < (data_bound d dp).data.length := data_lt_bound_size d dp hW
  rw [data_get_mk, List.length_set, list_getD_set]
  by_cases hj : dp = j
  · subst hj
    rw [if_neg (show ¬ (data_bound d dp).data.length ≤ dp from by omega),
        if_pos (show dp = dp ∧ dp < (data_bound d dp).data.length from ⟨rfl, hdp⟩),
        if_pos rfl]
  · rw [if_neg hj,
        if_neg (show ¬ (dp = j ∧ dp < (data_bound d dp).data.length) from fun hc => hj hc.1)]
    have hfold : (if (data_bound d dp).data.length ≤ j then 0
        else (data_bound d dp).data.getD j 0) = data_get (data_bound d dp) j := rfl
    rw [hfold, data_get_bound]

/-- The store of any of the three write operations does not change the
buffer size. -/
theorem data_inc_size (d : data_t) (dp : Nat) :
    (data_inc d dp).size = (data_bound d dp).size := by
  show ((data_bound d dp).data.set dp _).length = (data_bound d dp).data.length
  exact List.length_set _ _ _

/-- Cell content after `data_inc`, outside the wrap window. -/
theorem data_get_inc (d : data_t) (dp j : Nat)
    (hW : dp + 1 + DATA_GRANULARITY < SIZE_T_MOD) :
    data_get (data_inc d dp) j
      = if dp = j then (data_get d dp + 1) % 256 else data_get d j := by
  unfold data_inc
  rw [data_write_get d dp _ j hW, data_bound_getD d dp hW]

/-- Cell content after `data_dec`, outside the wrap window. -/
theorem data_get_dec (d : data_t) (dp j : Nat)
    (hW : dp + 1 + DATA_GRANULARITY < SIZE_T_MOD) :
    data_get (data_dec d dp) j
      = if dp = j then (data_get d dp + 255) % 256 else data_get d j := by
  unfold data_dec
  rw [data_write_get d dp _ j hW, data_bound_getD d dp hW]

/-- Cell content after `data_set`, outside the wrap window. -/
theorem data_get_set (d : data_t) (dp v j : Nat)
    (hW : dp + 1 + DATA_GRANULARITY < SIZE_T_MOD) :
    data_get (data_set d dp v) j = if dp = j then v % 256 else data_get d j := by
  unfold data_set
  rw [data_write_get d dp _ j hW]

/-- The empty tape reads 0 everywhere. -/
theorem data_get_init (j : Nat) : data_get data_init j = 0 := by
  have h : data_init.size ≤ j := Nat.zero_le j
  unfold data_get
  rw [if_pos h]

/-- A forward scan whose balance is already 0 stays put. -/
theorem fwd_scan_go_zero (fetch : Nat → instruction_t) (rem ip : Nat) :
    fwd_scan_go fetch rem ip 0 = ip := by
  cases rem <;> simp [fwd_scan_go]

/-- A backward scan whose balance is already 0 stays put. -/
theorem back_scan_zero (fetch : Nat → instruction_t) (n ip : Nat) :
    back_scan fetch n ip 0 = ip := by
  unfold back_scan
  rw [if_pos rfl]

/-- The forward-scan loop computes exactly what the specification describes:
`some j` from the transcription is the matching index, `none` degrades to
`n` (end of program).  The one fetch the loop performs at index `n` itself
can only be the last fetch of the scan, and whatever it decodes to the loop
then stops at `n`, so it does not affect the result. -/
theorem fwd_scan_go_eq_spec (fetch : Nat → instruction_t) (n : Nat) :
    ∀ rem ip balance, rem = n - ip → balance ≠ 0 → ip < n →
      fwd_scan_go fetch rem ip balance = (spec_fwd_scan fetch n (ip + 1) balance).getD n := by
  intro rem
  induction rem with
  | zero =>
    intro ip balance hrem hb hip
    omega
  | succ rem ih =>
    intro ip balance hrem hb hip
    show (if balance = 0 then ip
        else fwd_scan_go fetch rem (ip + 1) (fwd_balance (fetch (ip + 1)) balance))
      = (spec_fwd_scan fetch n (ip + 1) balance).getD n
    rw [if_neg hb]
    unfold spec_fwd_scan
    by_cases hn : ip + 1 < n
    · obtain ⟨r2, hr2⟩ : ∃ r2, n - (ip + 1) = r2 + 1 := ⟨n - (ip + 1) - 1, by omega⟩
      rw [hr2]
      show fwd_scan_go fetch rem (ip + 1) (fwd_balance (fetch (ip + 1)) balance)
        = (if fwd_balance (fetch (ip + 1)) balance = 0 then some (ip + 1)
            else spec_fwd_scan_go fetch r2 (ip + 2) (fwd_balance (fetch (ip + 1)) balance)).getD n
      by_cases hz : fwd_balance (fetch (ip + 1)) balance = 0
      · rw [if_pos hz, hz, fwd_scan_go_zero]
        rfl
      · rw [if_neg hz]
        have hrw : spec_fwd_scan_go fetch r2 (ip + 2) (fwd_balance (fetch (ip + 1)) balance)
            = spec_fwd_scan fetch n (ip + 2) (fwd_balance (fetch (ip + 1)) balance) := by
          unfold spec_fwd_scan
          rw [show n - (ip + 2) = r2 from by omega]
        rw [hrw]
        exact ih (ip + 1) (fwd_balance (fetch (ip + 1)) balance) (by omega) hz hn
    · have hrem0 : rem = 0 := by omega
      subst hrem0
      rw [show n - (ip + 1) = 0 from by omega]
      show fwd_scan_go fetch 0 (ip + 1) (fwd_balance (fetch (ip + 1)) balance)
        = (spec_fwd_scan_go fetch 0 (ip + 1) balance).getD n
      show ip + 1 = (none : Option Nat).getD n
      show ip + 1 = n
      omega

/-- `fwd_scan` against the specification transcription, at the engine's
call site (`balance = 1`, `ip` the index of the jump instruction). -/
theorem fwd_scan_eq_spec (fetch : Nat → instruction_t) (n ip : Nat) (hip : ip < n) :
    fwd_scan fetch n ip 1 = (spec_fwd_scan fetch n (ip + 1) 1).getD n := by
  unfold fwd_scan
  exact fwd_scan_go_eq_spec fetch n (n - ip) ip 1 rfl one_ne_zero hip

/-- The backward-scan loop computes exactly what the specification
describes: the matching index when one exists, and `n` (immediate
termination) when the scan would go below index 0 first, in particular when
the jump sits at index 0. -/
theorem back_scan_eq_spec (fetch : Nat → instruction_t) (n : Nat) :
    ∀ ip balance, balance ≠ 0 →
      back_scan fetch n ip balance
        = if ip = 0 then n else (spec_back_scan fetch (ip - 1) balance).getD n := by
  intro ip
  induction ip with
  | zero =>
    intro balance hb
    unfold back_scan
    rw [if_neg hb, if_pos rfl]
  | succ m ih =>
    intro balance hb
    unfold back_scan
    rw [if_neg hb, if_neg (Nat.succ_ne_zero m)]
    show back_scan fetch n m (back_balance (fetch m) balance)
      = (spec_back_scan fetch m balance).getD n
    unfold spec_back_scan
    by_cases hz : back_balance (fetch m) balance = 0
    · rw [if_pos hz, hz, back_scan_zero]
      rfl
    · rw [if_neg hz, ih (back_balance (fetch m) balance) hz]
      cases m with
      | zero => rfl
      | succ k => rfl

/-- The two decode paths agree pointwise on encoded programs: fetching unit
`i` of the Brainfuck encoding of `p` and fetching unit `i` of the Ichiglyph
encoding of `p` decode to the same instruction (both are the `i`-th non-NOP
instruction of `p`, and NOP beyond the end). -/
theorem encode_fetch_eq (p : List instruction_t) :
    ∀ i, bf_fetch (brainfuck_encode_program p) i = ig_fetch (ichiglyph_encode_program p) i := by
  induction p with
  | nil => intro i; cases i <;> rfl
  | cons a p ih =>
    intro i
    cases a <;> cases i <;> first | rfl | exact ih _

/-- The two encodings of a program have the same number of units (one per
non-NOP instruction). -/
theorem encode_length_eq (p : List instruction_t) :
    (brainfuck_encode_program p).length = (ichiglyph_encode_program p).length := by
  induction p with
  | nil => rfl
  | cons a p ih =>
    cases a <;>
      simpa [brainfuck_encode_program, ichiglyph_encode_program, brainfuck_encode,
        ichiglyph_encode] using ih

/-- C6 counterexample: at the wrap-window index `SIZE_T_MOD - 1` — the very
data pointer the unguarded `INST_DP_DEC` underflow produces — the `size_t`
size computation `dp + 1 + DATA_GRANULARITY` wraps to `DATA_GRANULARITY`,
so `data_bound` grows the empty tape to only `DATA_GRANULARITY` cells, far
fewer than the `index + 1 + GRANULARITY` the claim requires for every
index. -/
theorem C6_wrap_counterexample :
    (data_bound ⟨[]⟩ (SIZE_T_MOD - 1)).size = DATA_GRANULARITY
      ∧ ¬ (SIZE_T_MOD - 1) + 1 + DATA_GRANULARITY ≤ (data_bound ⟨[]⟩ (SIZE_T_MOD - 1)).size := by
  have h : (data_bound (⟨[]⟩ : data_t) (SIZE_T_MOD - 1)).size = DATA_GRANULARITY := by
    rw [data_bound_size, if_pos (by decide)]
    decide
  refine ⟨h, ?_⟩
  rw [h]
  decide

/-- C6 (amended): for every index whose growth size does not overflow
`size_t` (`index + 1 + GRANULARITY < 2 ^ 64`), when a write operation
touches a cell at or beyond the current buffer size the bound grows the
buffer to `index + 1 + GRANULARITY` cells (hence at least that many); the
grown region is zero-filled and old cells are preserved; the checked bound
fails only as `resourceExhausted` and only when the needed allocation
fails; `get` on an index at or beyond the buffer returns 0 (and, being a
pure read, cannot grow the buffer); consequently every cell reads 0 until
first written, as in the `GRANULARITY + 5` scenario where only the written
cell reads 1.  At a wrap-window index the size computation wraps instead
(see the counterexample). -/
theorem C6_tape_growth (d : data_t) (dp j : Nat) (allocOk : Bool)
    (hW : dp + 1 + DATA_GRANULARITY < SIZE_T_MOD) :
    (d.size ≤ dp → (data_bound d dp).size = dp + 1 + DATA_GRANULARITY)
    ∧ (d.size ≤ j → data_get (data_bound d dp) j = 0)
    ∧ (j < d.size → data_get (data_bound d dp) j = data_get d j)
    ∧ (d.size ≤ dp → data_get d dp = 0)
    ∧ (data_bound_chk allocOk d dp
        = if d.size ≤ dp ∧ allocOk = false then tape_result.resourceExhausted
          else tape_result.ok (data_bound d dp))
    ∧ (data_inc d dp).size = (data_bound d dp).size
    ∧ (data_get (data_inc data_init (DATA_GRANULARITY + 5)) j
        = if DATA_GRANULARITY + 5 = j then 1 else 0) := by
  refine ⟨?_, ?_, ?_, ?_, ?_, data_inc_size d dp, ?_⟩
  · intro h
    exact data_bound_size_grow d dp hW h
  · intro h
    rw [data_get_bound]
    unfold data_get
    rw [if_pos h]
  · intro h
    exact data_get_bound d dp j
  · intro h
    unfold data_get
    rw [if_pos h]
  · by_cases hg : d.size ≤ dp
    · cases allocOk with
      | false => simp [data_bound_chk, data_bound, hg]
      | true => simp [data_bound_chk, data_bound, hg]
    · simp [data_bound_chk, data_bound, hg]
  · rw [data_get_inc data_init (DATA_GRANULARITY + 5) j (by decide), data_get_init]
    by_cases hj : DATA_GRANULARITY + 5 = j
    · rw [if_pos hj, if_pos hj]
    · rw [if_neg hj, if_neg hj, data_get_init]

/-- C6 witness: growing an one-cell tape for index 3 yields a buffer of
`3 + 1 + DATA_GRANULARITY` cells whose (previously unbacked) cell 2 reads
0. -/
theorem C6_tape_growth_witness :
    (data_bound ⟨[7]⟩ 3).size = 3 + 1 + DATA_GRANULARITY
      ∧ data_get (data_bound ⟨[7]⟩ 3) 2 = 0 := by
  have h := C6_tape_growth ⟨[7]⟩ 3 2 true (by decide)
  exact ⟨h.1 (by decide), h.2.1 (by decide)⟩

/-- C7 counterexample: at the wrap-window index `SIZE_T_MOD - 1` (reachable
through the unguarded pointer underflow) the increment is not a mod-256
update of the cell: the buffer `data_bound` allocates has only the wrapped
`DATA_GRANULARITY` cells, so the store lands outside it — in C an
out-of-bounds write — and the cell still reads 0, not `(0 + 1) % 256`. -/
theorem C7_wrap_counterexample :
    ¬ data_get (data_inc ⟨[]⟩ (SIZE_T_MOD - 1)) (SIZE_T_MOD - 1)
        = (data_get (⟨[]⟩ : data_t) (SIZE_T_MOD - 1) + 1) % 256 := by
  have hsize : (data_inc (⟨[]⟩ : data_t) (SIZE_T_MOD - 1)).size = DATA_GRANULARITY := by
    rw [data_inc_size, data_bound_size, if_pos (by decide)]
    decide
  have hget : data_get (data_inc ⟨[]⟩ (SIZE_T_MOD - 1)) (SIZE_T_MOD - 1) = 0 := by
    unfold data_get
    rw [if_pos (show (data_inc (⟨[]⟩ : data_t) (SIZE_T_MOD - 1)).size ≤ SIZE_T_MOD - 1 from by
      rw [hsize]; decide)]
  rw [hget]
  decide

/-- C7 (amended): for every cell index whose growth size does not overflow
`size_t` (`index + 1 + GRANULARITY < 2 ^ 64`), cell arithmetic is unsigned
8-bit modular in both directions: increment adds 1 modulo 256, decrement
subtracts 1 modulo 256 (i.e. adds 255), incrementing a cell holding 255
yields 0 and decrementing a cell holding 0 yields 255.  At the wrap-window
index the store misses the allocated buffer instead (see the
counterexample). -/
theorem C7_cell_arithmetic_mod256 (d : data_t) (dp : Nat)
    (hW : dp + 1 + DATA_GRANULARITY < SIZE_T_MOD) :
    data_get (data_inc d dp) dp = (data_get d dp + 1) % 256
    ∧ data_get (data_dec d dp) dp = (data_get d dp + 255) % 256
    ∧ data_get (data_inc ⟨[255]⟩ 0) 0 = 0
    ∧ data_get (data_dec ⟨[0]⟩ 0) 0 = 255 := by
  refine ⟨?_, ?_, by decide, by decide⟩
  · rw [data_get_inc d dp dp hW, if_pos rfl]
  · rw [data_get_dec d dp dp hW, if_pos rfl]

/-- C7 witness: incrementing the cell holding 255 at the in-range index 0
wraps it to 0, and decrementing the cell holding 0 yields 255. -/
theorem C7_cell_arithmetic_mod256_witness :
    data_get (data_inc ⟨[255]⟩ 0) 0 = 0 ∧ data_get (data_dec ⟨[0]⟩ 0) 0 = 255 := by
  have h := C7_cell_arithmetic_mod256 ⟨[255]⟩ 0 (by decide)
  exact ⟨by rw [h.1]; decide, h.2.2.2⟩

/-- C8 counterexample: the ninth instruction kind, `INST_NOP`, does not
round-trip: both encoders emit no unit at all for it, so decoding what its
encoding produced yields the empty instruction sequence, not `INST_NOP`. -/
theorem C8_noop_roundtrip_counterexample :
    ¬ (List.map opcode_decode (brainfuck_encode instruction_t.INST_NOP)
          = [instruction_t.INST_NOP]
        ∧ List.map ichiglyph_opcode_decode (ichiglyph_encode instruction_t.INST_NOP)
          = [instruction_t.INST_NOP]) := by
  decide

/-- C8 (amended): for each of the eight operative instruction kinds,
decoding the unit produced by encoding it in either surface syntax yields
that same instruction; `INST_NOP` is dropped by both encoders (no unit
emitted), so its encoding decodes to the empty instruction sequence. -/
theorem C8_roundtrip (inst : instruction_t) :
    List.map opcode_decode (brainfuck_encode inst)
        = (if inst = instruction_t.INST_NOP then [] else [inst])
    ∧ List.map ichiglyph_opcode_decode (ichiglyph_encode inst)
        = (if inst = instruction_t.INST_NOP then [] else [inst]) := by
  cases inst <;> exact ⟨rfl, rfl⟩

/-- C9: for every instruction sequence and every input stream, running the
1-byte engine on the Brainfuck encoding of the sequence and the 2-byte
engine on the Ichiglyph encoding of the same sequence produce identical
results for every fuel bound: the full engine states agree (in particular
the output byte sequences agree) and one run terminates within a given
number of steps exactly when the other does, including on
malformed/unbalanced programs (the equality holds for arbitrary sequences,
balanced or not). -/
theorem C9_engine_encoding_equivalence (p : List instruction_t) (input : List Nat) (fuel : Nat) :
    brainfuck_run (brainfuck_encode_program p) input fuel
      = ichiglyph_run (ichiglyph_encode_program p) input fuel := by
  unfold brainfuck_run ichiglyph_run
  rw [funext (encode_fetch_eq p), encode_length_eq p]

/-- C1: when the instruction at `ip` is `INST_JMP_FORWARD` and the test
cell is 0, the engine's new `ip` is one past the index found by the
forward balance scan described by the specification (scan from `ip + 1`,
balance starting at 1, `+1` per further forward jump, `-1` per backward
jump, stop at balance 0), so execution resumes one instruction past the
matching close; when the scan reaches the end of the program without
matching the new `ip` is `n + 1`, past the terminal state, so the run
terminates at end-of-program; when the test cell is nonzero the
instruction falls through and only the post-dispatch increment happens. -/
theorem C1_forward_jump_resolution (fetch : Nat → instruction_t) (n : Nat) (s : EngineState)
    (hip : s.ip < n) (hinst : fetch s.ip = instruction_t.INST_JMP_FORWARD) :
    (data_get s.data s.dp = 0 →
      engine_step fetch n s
          = { s with ip := (spec_fwd_scan fetch n (s.ip + 1) 1).getD n + 1 }
        ∧ (spec_fwd_scan fetch n (s.ip + 1) 1 = none → n < (engine_step fetch n s).ip))
    ∧ (data_get s.data s.dp ≠ 0 → engine_step fetch n s = { s with ip := s.ip + 1 }) := by
  have hexec : engine_exec fetch n s
      = if data_get s.data s.dp = 0 then { s with ip := fwd_scan fetch n s.ip 1 } else s := by
    unfold engine_exec
    rw [hinst]
  constructor
  · intro h0
    have hstep : engine_step fetch n s
        = { s with ip := (spec_fwd_scan fetch n (s.ip + 1) 1).getD n + 1 } := by
      unfold engine_step
      rw [hexec, if_pos h0, fwd_scan_eq_spec fetch n s.ip hip]
    refine ⟨hstep, ?_⟩
    intro hnone
    rw [hstep, hnone]
    exact Nat.lt_succ_self n
  · intro hne
    unfold engine_step
    rw [hexec, if_neg hne]

/-- C1 witness: a forward jump at index 0 over a zero cell with the
matching close at index 1 resumes at index 2. -/
theorem C1_forward_jump_resolution_witness :
    (engine_step
        (fun i => if i = 0 then instruction_t.INST_JMP_FORWARD else instruction_t.INST_JMP_BACK)
        2 (engine_init [])).ip = 2 := by
  have h := (C1_forward_jump_resolution
      (fun i => if i = 0 then instruction_t.INST_JMP_FORWARD else instruction_t.INST_JMP_BACK)
      2 (engine_init []) (by decide) (by rfl)).1 (by rfl)
  rw [h.1]
  decide

/-- C2: when the instruction at `ip` is `INST_JMP_BACK` and the test cell
is nonzero, the engine's new `ip` is one past the index found by the
backward balance scan described by the specification (scan from `ip - 1`,
balance starting at 1, `+1` per backward jump, `-1` per forward jump, stop
at balance 0), so execution resumes one instruction past the matching open;
when the scan would go below index 0 before matching (in particular when
the jump sits at index 0) the new `ip` is `n + 1`, so the run terminates
immediately; when the test cell is 0 the instruction falls through and only
the post-dispatch increment happens. -/
theorem C2_backward_jump_resolution (fetch : Nat → instruction_t) (n : Nat) (s : EngineState)
    (hip : s.ip < n) (hinst : fetch s.ip = instruction_t.INST_JMP_BACK) :
    (data_get s.data s.dp ≠ 0 →
      engine_step fetch n s
          = { s with ip :=
                (if s.ip = 0 then none else spec_back_scan fetch (s.ip - 1) 1).getD n + 1 }
        ∧ ((if s.ip = 0 then none else spec_back_scan fetch (s.ip - 1) 1) = none →
            n < (engine_step fetch n s).ip))
    ∧ (data_get s.data s.dp = 0 → engine_step fetch n s = { s with ip := s.ip + 1 }) := by
  have hexec : engine_exec fetch n s
      = if data_get s.data s.dp = 0 then s else { s with ip := back_scan fetch n s.ip 1 } := by
    unfold engine_exec
    rw [hinst]
  have hgetD : (if s.ip = 0 then (none : Option Nat) else spec_back_scan fetch (s.ip - 1) 1).getD n
      = if s.ip = 0 then n else (spec_back_scan fetch (s.ip - 1) 1).getD n := by
    by_cases h0 : s.ip = 0
    · rw [if_pos h0, if_pos h0]
      rfl
    · rw [if_neg h0, if_neg h0]
  constructor
  · intro hne
    have hstep : engine_step fetch n s
        = { s with ip :=
              (if s.ip = 0 then none else spec_back_scan fetch (s.ip - 1) 1).getD n + 1 } := by
      unfold engine_step
      rw [hexec, if_neg hne, back_scan_eq_spec fetch n s.ip 1 one_ne_zero, hgetD]
    refine ⟨hstep, ?_⟩
    intro hnone
    rw [hstep, hnone]
    exact Nat.lt_succ_self n
  · intro h0
    unfold engine_step
    rw [hexec, if_pos h0]

/-- C2 witness: a backward jump at index 1 over a nonzero cell with the
matching open at index 0 resumes at index 1 (one past the open). -/
theorem C2_backward_jump_resolution_witness :
    (engine_step
        (fun i => if i = 0 then instruction_t.INST_JMP_FORWARD else instruction_t.INST_JMP_BACK)
        2 ⟨1, 0, ⟨[1]⟩, [], []⟩).ip = 1 := by
  have h := (C2_backward_jump_resolution
      (fun i => if i = 0 then instruction_t.INST_JMP_FORWARD else instruction_t.INST_JMP_BACK)
      2 ⟨1, 0, ⟨[1]⟩, [], []⟩ (by decide) (by rfl)).1 (by decide)
  rw [h.1]
  decide

/-- C10: when `INST_VAL_ACCEPT` executes with the input at end-of-input the
run terminates as a normal terminal condition, not a fault: the new `ip` is
past the terminal state, the tape is left unwritten (the current cell
included), no output or diagnostic is produced; and the scenario program
`Output Input Output` (`.,.`) run on empty input emits exactly the one
byte 0 of the first Output and exits with status 0. -/
theorem C10_end_of_input_terminates (fetch : Nat → instruction_t) (n : Nat) (s : EngineState)
    (hip : s.ip < n) (hinst : fetch s.ip = instruction_t.INST_VAL_ACCEPT)
    (hin : s.input = []) :
    engine_step fetch n s = { s with ip := n + 1 }
    ∧ ¬ (engine_step fetch n s).ip < n
    ∧ (engine_step fetch n s).data = s.data
    ∧ (engine_step fetch n s).output = s.output
    ∧ brainfuck_main ['.', ',', '.'] [] 4 = some ([0], 0) := by
  have hstep : engine_step fetch n s = { s with ip := n + 1 } := by
    unfold engine_step
    rw [show engine_exec fetch n s = { s with ip := n } from by
      unfold engine_exec
      rw [hinst, hin]]
  refine ⟨hstep, ?_, ?_, ?_, by decide⟩
  · rw [hstep]
    exact fun hc => absurd hc (by simp)
  · rw [hstep]
  · rw [hstep]

/-- C10 witness: an `INST_VAL_ACCEPT` at index 0 of a one-instruction
program with empty input terminates the run with the tape untouched. -/
theorem C10_end_of_input_terminates_witness :
    engine_step (fun _ => instruction_t.INST_VAL_ACCEPT) 1 (engine_init [])
      = { engine_init [] with ip := 2 } := by
  have h := C10_end_of_input_terminates (fun _ => instruction_t.INST_VAL_ACCEPT) 1
      (engine_init []) (by decide) (by rfl) (by rfl)
  exact h.1

/-- C3 (bug evaluation): on the length-1 program `[` with the test cell 0,
the forward-scan loop performs exactly one program fetch, and that fetch
reads index 1 — equal to the program length, i.e. one unit past the end of
the mapped program — because the loop increments `ip` and fetches before
re-checking `ip == program_size`. -/
theorem C3_forward_scan_oob_fetch :
    fwd_scan_fetches (bf_fetch ['[']) (List.length ['[']) 0 1 = [1]
      ∧ ¬ 1 < List.length ['['] := by
  decide

/-- C4 (bug evaluation): executing `INST_DP_DEC` at `dp = 0` silently wraps
the data pointer to `SIZE_T_MOD - 1` (the size_t underflow of `dp--`), and
the run of the program `<` then terminates with exit status 0 and no
fault surfaced to the caller. -/
theorem C4_pointer_underflow_wraps :
    (engine_step (bf_fetch ['<']) 1 (engine_init [])).dp = SIZE_T_MOD - 1
      ∧ brainfuck_main ['<'] [] 2 = some ([], 0) := by
  constructor
  · decide
  · decide

/-- C5 (bug evaluation): the run of the unmatched-forward-jump program `[`
over a zero tape terminates without a crash, but its caller-observable
outcome (output bytes, exit status) is identical to that of a program that
reaches the end of the program normally — the empty program — so the
unmatched-bracket termination is not distinguishable by the caller. -/
theorem C5_unmatched_outcome_conflated :
    brainfuck_main ['['] [] 2 = brainfuck_main [] [] 1
      ∧ brainfuck_main ['['] [] 2 = some ([], 0) := by
  constructor
  · decide
  · decide
